import Mathlib

/-!
A verification development of `main.go` of filter-s3-object-data.

The program parses an S3 URI, builds an S3 Select query from four optional
command-line criteria and relays the records the service returns to standard
output.  This file embeds `parseInputURI`, `buildQuery`, `newS3ObjectFilterer`
and `filterS3ObjectData` and proves the properties of its specification.

Conventions of the embedding:

* a Go `string` is a Lean `String`, a Go `[]byte` a list of bytes;
* a Go result `(v, err)` is a pair whose second component is `none` for a
  `nil` error and `some msg` for an error with message `msg`;
* the process-wide flag variables are the fields of `Flags`; a function that
  assigns to them returns the new `Flags` next to its result;
* functions of the Go standard library and of the AWS SDK are modelled from
  their documentation (`strings.*`, `io.Copy`, `io.Pipe`) or taken as
  parameters (`time.Parse`, the `SelectObjectContent` request).
-/

namespace FilterS3

/-! ## The `strings` package -/

namespace strings

/-- Go `strings.HasPrefix(s, pre)`: whether `s` begins with `pre`. -/
def HasPrefix (s pre : String) : Bool :=
  pre.data.isPrefixOf s.data

/-- Scan of `strings.Contains`: whether `sub` starts at some position of the
remaining text. -/
def containsFrom (sub : List Char) : List Char → Bool
  | [] => sub.isEmpty
  | c :: cs => sub.isPrefixOf (c :: cs) || containsFrom sub cs

/-- Go `strings.Contains(s, substr)`: whether `substr` is within `s`. -/
def Contains (s substr : String) : Bool :=
  containsFrom substr.data s.data

/-- Scan of `strings.Replace(s, old, new, 1)`: the text with its first
occurrence of `old` replaced by `new`. -/
def replaceFirst (old new : List Char) : List Char → List Char
  | [] => if old.isEmpty then new else []
  | c :: cs =>
    if old.isPrefixOf (c :: cs) then new ++ (c :: cs).drop old.length
    else c :: replaceFirst old new cs

/-- Go `strings.Replace(s, old, new, 1)`: a copy of `s` with its first
occurrence of `old` replaced by `new`. -/
def Replace1 (s old new : String) : String :=
  ⟨replaceFirst old.data new.data s.data⟩

/-- Scan of `strings.Split` for a non-empty separator: `skip` counts the
characters of a separator just matched that are still to be passed over, `cur`
holds the segment being read, reversed. -/
def splitFrom (sep : List Char) : List Char → Nat → List Char → List (List Char)
  | [], _, cur => [cur.reverse]
  | _ :: cs, skip + 1, cur => splitFrom sep cs skip cur
  | c :: cs, 0, cur =>
    if sep.isPrefixOf (c :: cs) then cur.reverse :: splitFrom sep cs (sep.length - 1) []
    else splitFrom sep cs 0 (c :: cur)

/-- Go `strings.Split(s, sep)` for a non-empty `sep`: the substrings of `s`
between the occurrences of `sep`, found left to right. -/
def Split (s sep : String) : List String :=
  (splitFrom sep.data s.data 0 []).map String.mk

end strings

/-! ## Process-wide state -/

/-- The package-level flag variables of `main.go` (lines 19-22). -/
structure Flags where
  input : String
  fromTime : String
  toTime : String
  withWord : String
  withId : Int
  deriving DecidableEq, Repr

/-- Go `fmt.Sprint` of an `int`: its decimal rendering. -/
def Sprint (n : Int) : String := toString n

/-! ## `parseInputURI` (lines 90-105) -/

/-- The constant `s3Protocol` of `parseInputURI`. -/
def s3Protocol : String := "s3://"

/-- The constant `s3URIErrMsg` of `parseInputURI`. -/
def s3URIErrMsg : String := "-input s3 URI value is invalid"

/-- The function `parseInputURI`: the two segments of `input` after the
`s3://` prefix, or the nil slice and an error. -/
def parseInputURI (g : Flags) : List String × Option String :=
  if !strings.HasPrefix g.input s3Protocol then
    ([], some s3URIErrMsg)
  else
    let sBucketKey := strings.Split (strings.Replace1 g.input s3Protocol "") "/"
    if sBucketKey.length != 2 || (sBucketKey.getD 0 "").length == 0
        || (sBucketKey.getD 1 "").length == 0 then
      ([], some s3URIErrMsg)
    else
      (sBucketKey, none)

/-! ## `buildQuery` (lines 107-166) -/

/-- The initial value of `query` in `buildQuery` (line 109). -/
def baseQuery : String := "SELECT s.id, s.\"time\", s.words FROM S3Object s "

/-- The local `where` of `buildQuery` (line 110). -/
def whereKw : String := "WHERE"

/-- The local `and` of `buildQuery` (line 111). -/
def andKw : String := "AND"

/-- Lines 151-165 of `buildQuery`: the `withWord` block and the final return. -/
def buildQueryWord (g : Flags) (query : String) : (String × Option String) × Flags :=
  if g.withWord.length != 0 then
    let g := { g with withWord := " '" ++ g.withWord ++ "' IN s.words" }
    let ww := if !strings.Contains query whereKw then whereKw else andKw
    let ww := ww ++ g.withWord
    ((query ++ ww, none), g)
  else
    ((query, none), g)

/-- Lines 134-149 of `buildQuery`, the `toTime` block, followed by the rest of
the function.  `timeParse s` stands for `time.Parse(time.RFC3339, s)`: `none`
when the parse succeeds, `some msg` when it fails with message `msg`. -/
def buildQueryTo (timeParse : String → Option String) (g : Flags) (query : String) :
    (String × Option String) × Flags :=
  if g.toTime.length != 0 then
    match timeParse g.toTime with
    | some err => (("", some ("-to-time value is invalid - " ++ err)), g)
    | none =>
      let g := { g with toTime := " TO_TIMESTAMP(s.\"time\") <= TO_TIMESTAMP('" ++ g.toTime ++ "') " }
      let tt := if !strings.Contains query whereKw then whereKw else andKw
      let tt := tt ++ g.toTime
      buildQueryWord g (query ++ tt)
  else
    buildQueryWord g query

/-- Lines 117-132 of `buildQuery`, the `fromTime` block, followed by the rest
of the function. -/
def buildQueryFrom (timeParse : String → Option String) (g : Flags) (query : String) :
    (String × Option String) × Flags :=
  if g.fromTime.length != 0 then
    match timeParse g.fromTime with
    | some err => (("", some ("-from-time value is invalid - " ++ err)), g)
    | none =>
      let g := { g with fromTime := " TO_TIMESTAMP(s.\"time\") >= TO_TIMESTAMP('" ++ g.fromTime ++ "') " }
      let ft := if !strings.Contains query whereKw then whereKw else andKw
      let ft := ft ++ g.fromTime
      buildQueryTo timeParse g (query ++ ft)
  else
    buildQueryTo timeParse g query

/-- The function `buildQuery`: the query and error it returns, and the flag
variables as it leaves them. -/
def buildQuery (timeParse : String → Option String) (g : Flags) :
    (String × Option String) × Flags :=
  let query := baseQuery
  let query := if g.withId != 0 then query ++ ("WHERE s.id = " ++ Sprint g.withId) else query
  buildQueryFrom timeParse g query

/-! ## `newS3ObjectFilterer` and `filterS3ObjectData` (lines 178-231) -/

/-- A Go `[]byte`. -/
abbrev Bytes := List (Fin 256)

/-- The events of `s3.SelectObjectContentEventStream`; only `RecordsEvent`
carries a payload the program reads. -/
inductive Event where
  | RecordsEvent (Payload : Bytes)
  | StatsEvent
  | ProgressEvent
  | ContinuationEvent
  | EndEvent
  deriving DecidableEq, Repr

/-- What the program observes of `resp.EventStream`: the events its `Events()`
channel delivers before it is closed, and the value of `Err()` after that. -/
structure EventStream where
  Events : List Event
  Err : Option String
  deriving DecidableEq, Repr

/-- The fields of `s3.SelectObjectContentInput` that the program sets; the
output serialization is JSON without options. -/
structure SelectObjectContentInput where
  Bucket : String
  Key : String
  ExpressionType : String
  Expression : String
  InputJSONType : String
  InputCompressionType : String
  deriving DecidableEq, Repr

/-- The remote service as the program uses it: `SelectObjectContent(params)`
answers with an event stream or with an error. -/
abbrev S3Client := SelectObjectContentInput → Except String EventStream

/-- The struct `s3ObjFilterer` (lines 28-33). -/
structure s3ObjFilterer where
  bucket : String
  key : String
  query : String
  s3Client : S3Client

/-- The function `newS3ObjectFilterer`; `none` stands for the run-time panic
of an index out of range at `sBucketKey[0]` or `sBucketKey[1]`. -/
def newS3ObjectFilterer (sBucketKey : List String) (query : String) (s3Client : S3Client) :
    Option s3ObjFilterer :=
  match sBucketKey[0]?, sBucketKey[1]? with
  | some b, some k => some { bucket := b, key := k, query := query, s3Client := s3Client }
  | _, _ => none

/-- The goroutine of lines 212-220 looking for its next `pw.Write`: it receives
events, passes over those that are not `RecordsEvent`, and stops at the first
payload; `none` when the channel is closed first (the deferred `pw.Close()`
then runs). -/
def nextWrite : List Event → Option (Bytes × List Event)
  | [] => none
  | Event.RecordsEvent p :: es => some (p, es)
  | _ :: es => nextWrite es

/-- The state of the pipe of line 211 between two reads of `io.Copy`: the
events not yet received by the goroutine, the bytes of a `pw.Write` in
progress that no read has taken yet, and what standard output holds. -/
structure PipeState where
  events : List Event
  writing : Option Bytes
  stdout : Bytes
  deriving DecidableEq, Repr

/-- The loop of `io.Copy(os.Stdout, pr)` of line 222 against the goroutine.
Each round is one `pr.Read` into a buffer of `bufSize` bytes: it meets the
`pw.Write` in progress (or the next one the goroutine makes), takes at most
`bufSize` bytes of it and, when it took any, writes them with `stdoutWrite`;
the `pw.Write` goes on while it has bytes left.  The loop ends without error
at the end of file that `pw.Close()` produces and with the error of a failed
write.  `stdoutWrite out b` is `os.Stdout.Write(b)` when standard output holds
`out`: the new contents and the error.  The result is `none` when the fuel
runs out. -/
def ioCopy (bufSize : Nat) (stdoutWrite : Bytes → Bytes → Bytes × Option String) :
    Nat → PipeState → Option (Option String × Bytes)
  | 0, _ => none
  | fuel + 1, st =>
    let offer := match st.writing with
      | some b => some (b, st.events)
      | none => nextWrite st.events
    match offer with
    | none => some (none, st.stdout)
    | some (b, es) =>
      let n := min b.length bufSize
      let rest := b.drop n
      let writing := if rest.length > 0 then some rest else none
      if n > 0 then
        match stdoutWrite st.stdout (b.take n) with
        | (out, some ew) => some (some ew, out)
        | (out, none) => ioCopy bufSize stdoutWrite fuel ⟨es, writing, out⟩
      else
        ioCopy bufSize stdoutWrite fuel ⟨es, writing, st.stdout⟩

/-- The request built at lines 189-203; `"SQL"`, `"LINES"` and `"GZIP"` are the
SDK constants `ExpressionTypeSql`, `JSONTypeLines` and `CompressionTypeGzip`. -/
def selectParams (s3of : s3ObjFilterer) : SelectObjectContentInput :=
  { Bucket := s3of.bucket
    Key := s3of.key
    ExpressionType := "SQL"
    Expression := s3of.query
    InputJSONType := "LINES"
    InputCompressionType := "GZIP" }

/-- The method `filterS3ObjectData`: the error it returns and what standard
output holds afterwards, when standard output held `stdout` before; `none`
when the fuel of the copy loop runs out. -/
def filterS3ObjectData (bufSize : Nat) (stdoutWrite : Bytes → Bytes → Bytes × Option String)
    (fuel : Nat) (s3of : s3ObjFilterer) (stdout : Bytes) : Option (Option String × Bytes) :=
  match s3of.s3Client (selectParams s3of) with
  | Except.error err => some (some err, stdout)
  | Except.ok resp =>
    match ioCopy bufSize stdoutWrite fuel ⟨resp.Events, none, stdout⟩ with
    | none => none
    | some (some err, out) => some (some err, out)
    | some (none, out) =>
      match resp.Err with
      | some err => some (some ("failed to read from SelectObjectContent EventStream, " ++ err), out)
      | none => some (none, out)

/-- A standard output on which every write succeeds. -/
def stdoutAppend (out b : Bytes) : Bytes × Option String := (out ++ b, none)

/-! ## A sample of `time.Parse` -/

/-- The value of a decimal digit. -/
def digitVal (c : Char) : Option Nat :=
  if c.isDigit then some (c.toNat - 48) else none

/-- The number written by two decimal digits. -/
def twoDigits (a b : Char) : Option Nat :=
  match digitVal a, digitVal b with
  | some x, some y => some (10 * x + y)
  | _, _ => none

/-- The number of days of month `m` of year `y`. -/
def daysIn (y m : Nat) : Nat :=
  if m = 2 then (if y % 4 = 0 ∧ (y % 100 ≠ 0 ∨ y % 400 = 0) then 29 else 28)
  else if m = 4 ∨ m = 6 ∨ m = 9 ∨ m = 11 then 30
  else 31

/-- Whether the text is a UTC timestamp `YYYY-MM-DDTHH:MM:SSZ` with every field
in range. -/
def utcTimestamp : List Char → Bool
  | [y1, y2, y3, y4, a, m1, m2, b, d1, d2, t, h1, h2, c, n1, n2, d, s1, s2, z] =>
    a == '-' && b == '-' && t == 'T' && c == ':' && d == ':' && z == 'Z' &&
    match twoDigits y1 y2, twoDigits y3 y4, twoDigits m1 m2, twoDigits d1 d2,
      twoDigits h1 h2, twoDigits n1 n2, twoDigits s1 s2 with
    | some yh, some yl, some m, some dd, some h, some n, some s =>
      decide (1 ≤ m ∧ m ≤ 12 ∧ 1 ≤ dd ∧ dd ≤ daysIn (100 * yh + yl) m ∧ h < 24 ∧ n < 60 ∧ s < 60)
    | _, _, _, _, _, _, _ => false
  | _ => false

/-- A sample behaviour of `time.Parse(time.RFC3339, s)`, used to evaluate the
theorems at concrete flags: it accepts the UTC timestamps of the form
`YYYY-MM-DDTHH:MM:SSZ`, which the library accepts too, rejects every other
string, and reports a rejection with the opening words of the library's
message.  The theorems themselves hold for every behaviour of the parser. -/
def sampleTimeParse (s : String) : Option String :=
  if utcTimestamp s.data then none else some ("parsing time \"" ++ s ++ "\"")

/-! ## Definitions that follow the specification -/

/-- The characters of an RFC 3339 timestamp as `time.Parse` accepts it: decimal
digits, the separators of the date, time, fraction and zone offset, and the
letters `T` and `Z`. -/
def rfc3339Char (c : Char) : Bool :=
  c.isDigit || c == '-' || c == ':' || c == '.' || c == ',' || c == '+' || c == 'T' || c == 'Z'

/-- A text made of the characters of RFC 3339 timestamps only. -/
def rfc3339Alphabet (s : String) : Bool := s.data.all rfc3339Char

/-- The predicate bodies of the criteria that are set, in the fixed order id,
fromTime, toTime, word. -/
def specPredicates (c : Flags) : List String :=
  (if c.withId = 0 then [] else [" s.id = " ++ Sprint c.withId]) ++
  (if c.fromTime = "" then []
    else [" TO_TIMESTAMP(s.\"time\") >= TO_TIMESTAMP('" ++ c.fromTime ++ "') "]) ++
  (if c.toTime = "" then []
    else [" TO_TIMESTAMP(s.\"time\") <= TO_TIMESTAMP('" ++ c.toTime ++ "') "]) ++
  (if c.withWord = "" then [] else [" '" ++ c.withWord ++ "' IN s.words"])

/-- Every predicate after the first, each introduced by `AND`. -/
def specAnd : List String → String
  | [] => ""
  | p :: ps => "AND" ++ p ++ specAnd ps

/-- The predicates joined: the first introduced by `WHERE`, the others by `AND`. -/
def specClauses : List String → String
  | [] => ""
  | p :: ps => "WHERE" ++ p ++ specAnd ps

/-- The query of the specification: the base clause followed by one predicate
per set criterion. -/
def specQuery (c : Flags) : String :=
  baseQuery ++ specClauses (specPredicates c)

/-- The number of positions of the text at which `pat` occurs. -/
def countOccFrom (pat : List Char) : List Char → Nat
  | [] => if pat.isEmpty then 1 else 0
  | c :: cs => (if pat.isPrefixOf (c :: cs) then 1 else 0) + countOccFrom pat cs

/-- The number of occurrences of `pat` as a substring of `s`. -/
def countOcc (pat s : String) : Nat := countOccFrom pat.data s.data

/-- The payloads of the `RecordsEvent`s of a sequence of events, concatenated
in order. -/
def recordBytes : List Event → Bytes
  | [] => []
  | Event.RecordsEvent p :: es => p ++ recordBytes es
  | _ :: es => recordBytes es

/-! ## Lemmas on strings -/

theorem containsFrom_iff (sub s : List Char) : strings.containsFrom sub s = true ↔ sub <:+: s := by
  induction s with
  | nil => simp [strings.containsFrom, List.isEmpty_iff]
  | cons c cs ih =>
    simp only [strings.containsFrom, Bool.or_eq_true, ih, List.isPrefixOf_iff_prefix,
      List.infix_cons_iff]

theorem contains_iff (s sub : String) : strings.Contains s sub = true ↔ sub.data <:+: s.data :=
  containsFrom_iff _ _

theorem contains_base : strings.Contains baseQuery whereKw = false := by decide

theorem contains_append_right (q x p : String) (h : strings.Contains q p = true) :
    strings.Contains (q ++ x) p = true := by
  rw [contains_iff] at h ⊢
  rw [String.data_append]
  exact h.trans (List.prefix_append _ _).isInfix

theorem contains_base_where (x : String) :
    strings.Contains (baseQuery ++ (whereKw ++ x)) whereKw = true := by
  rw [contains_iff]
  simp only [String.data_append]
  exact ⟨baseQuery.data, x.data, by simp⟩

theorem id_literal (x : String) : "WHERE s.id = " ++ x = whereKw ++ (" s.id = " ++ x) := by
  rw [← String.append_assoc]; rfl

theorem length_eq_zero_iff (s : String) : s.length = 0 ↔ s = "" := by
  rcases s with ⟨l⟩
  cases l <;> simp [String.length, String.ext_iff]

/-! ## `strings.Split` and `strings.Replace` on the inputs of `parseInputURI` -/

theorem splitFrom_not_mem (c : Char) (s cur : List Char) (h : c ∉ s) :
    strings.splitFrom [c] s 0 cur = [cur.reverse ++ s] := by
  induction s generalizing cur with
  | nil => simp [strings.splitFrom]
  | cons d s ih =>
    have hd : ¬ c = d := fun e => h (e ▸ List.mem_cons_self _ _)
    have hs : c ∉ s := fun e => h (List.mem_cons_of_mem _ e)
    simp [strings.splitFrom, List.isPrefixOf, hd, ih _ hs]

theorem splitFrom_first (c : Char) (b k cur : List Char) (h : c ∉ b) :
    strings.splitFrom [c] (b ++ c :: k) 0 cur
      = (cur.reverse ++ b) :: strings.splitFrom [c] k 0 [] := by
  induction b generalizing cur with
  | nil => simp [strings.splitFrom, List.isPrefixOf]
  | cons d b ih =>
    have hd : ¬ c = d := fun e => h (e ▸ List.mem_cons_self _ _)
    have hb : c ∉ b := fun e => h (List.mem_cons_of_mem _ e)
    simp [strings.splitFrom, List.isPrefixOf, hd, ih _ hb]

theorem first_occurrence (c : Char) (s : List Char) (h : c ∈ s) :
    ∃ b k, s = b ++ c :: k ∧ c ∉ b := by
  induction s with
  | nil => simp at h
  | cons d s ih =>
    by_cases hd : c = d
    · exact ⟨[], s, by simp [hd], by simp⟩
    · have hs : c ∈ s := by
        rcases List.mem_cons.1 h with e | e
        · exact absurd e hd
        · exact e
      obtain ⟨b, k, hbk, hb⟩ := ih hs
      refine ⟨d :: b, k, by simp [hbk], ?_⟩
      intro hmem
      rcases List.mem_cons.1 hmem with e | e
      · exact hd e
      · exact hb e

theorem splitFrom_pair (c : Char) (s b k : List Char) :
    strings.splitFrom [c] s 0 [] = [b, k] ↔ s = b ++ c :: k ∧ c ∉ b ∧ c ∉ k := by
  constructor
  · intro h
    by_cases hs : c ∈ s
    · obtain ⟨b1, k1, hbk, hb1⟩ := first_occurrence c s hs
      rw [hbk, splitFrom_first c b1 k1 [] hb1] at h
      simp only [List.reverse_nil, List.nil_append, List.cons.injEq] at h
      obtain ⟨hb, hk⟩ := h
      subst hb
      by_cases hk1 : c ∈ k1
      · obtain ⟨b2, k2, hbk2, hb2⟩ := first_occurrence c k1 hk1
        rw [hbk2, splitFrom_first c b2 k2 [] hb2] at hk
        simp only [List.reverse_nil, List.nil_append, List.cons.injEq] at hk
        obtain ⟨-, hnil⟩ := hk
        by_cases hk2 : c ∈ k2
        · obtain ⟨b3, k3, hbk3, hb3⟩ := first_occurrence c k2 hk2
          rw [hbk3, splitFrom_first c b3 k3 [] hb3] at hnil
          simp at hnil
        · rw [splitFrom_not_mem c k2 [] hk2] at hnil
          simp at hnil
      · rw [splitFrom_not_mem c k1 [] hk1] at hk
        simp only [List.reverse_nil, List.nil_append, List.cons.injEq, and_true] at hk
        subst hk
        exact ⟨hbk, hb1, hk1⟩
    · rw [splitFrom_not_mem c s [] hs] at h
      simp at h
  · rintro ⟨rfl, hb, hk⟩
    rw [splitFrom_first c b k [] hb, splitFrom_not_mem c k [] hk]
    simp

theorem replaceFirst_at_start (old new tail : List Char) (h : old ≠ []) :
    strings.replaceFirst old new (old ++ tail) = new ++ tail := by
  cases old with
  | nil => exact absurd rfl h
  | cons o os =>
    have hp : (o :: os).isPrefixOf (o :: (os ++ tail)) = true := by
      rw [List.isPrefixOf_iff_prefix]
      exact ⟨tail, rfl⟩
    simp only [List.cons_append, strings.replaceFirst, hp, if_true]
    simp

/-! ## `buildQuery` on accepted criteria -/

theorem buildQuery_accepts (timeParse : String → Option String) (g : Flags)
    (hf : g.fromTime = "" ∨ timeParse g.fromTime = none)
    (ht : g.toTime = "" ∨ timeParse g.toTime = none) :
    (buildQuery timeParse g).1 = (specQuery g, none) := by
  obtain ⟨input, fromTime, toTime, withWord, withId⟩ := g
  simp only at hf ht
  have hf' : ¬ fromTime = "" → timeParse fromTime = none := fun h => hf.resolve_left h
  have ht' : ¬ toTime = "" → timeParse toTime = none := fun h => ht.resolve_left h
  by_cases hid : withId = 0 <;> by_cases hfe : fromTime = "" <;>
    by_cases hte : toTime = "" <;> by_cases hwe : withWord = "" <;>
    simp [buildQuery, buildQueryFrom, buildQueryTo, buildQueryWord, specQuery, specPredicates,
      specClauses, specAnd, hid, hfe, hte, hwe, hf', ht', contains_base, contains_base_where,
      contains_append_right, id_literal, length_eq_zero_iff, String.append_assoc] <;>
    simp [whereKw, andKw]

theorem contains_specClauses (ps : List String) :
    strings.Contains (baseQuery ++ specClauses ps) whereKw = true ↔ ps ≠ [] := by
  cases ps with
  | nil => simp [specClauses, contains_base]
  | cons p ps =>
    have h := contains_base_where (p ++ specAnd ps)
    simpa [specClauses, whereKw, String.append_assoc] using h

/-! ## The claims on `buildQuery` -/

/-- C1 (the code departs from it): `buildQuery` overwrites the flag variables
`fromTime`, `toTime` and `withWord` with the predicates it builds from them, so
a second call right after a successful first one does not return the same
query.  With only the word `a` set the first call returns the query with the
predicate on `a` and the second call a query with the predicate wrapped in
itself; with only a valid `fromTime` set the first call succeeds and the second
one is rejected by any parser that rejects the predicate text. -/
theorem buildQuery_second_call_differs (timeParse : String → Option String) :
    (buildQuery timeParse ⟨"", "", "", "a", 0⟩).1
        = ("SELECT s.id, s.\"time\", s.words FROM S3Object s WHERE 'a' IN s.words", none) ∧
      (buildQuery timeParse (buildQuery timeParse ⟨"", "", "", "a", 0⟩).2).1
        = ("SELECT s.id, s.\"time\", s.words FROM S3Object s WHERE ' 'a' IN s.words' IN s.words",
            none) ∧
      (buildQuery sampleTimeParse ⟨"", "2020-01-01T00:00:00Z", "", "", 0⟩).1
        = ("SELECT s.id, s.\"time\", s.words FROM S3Object s WHERE TO_TIMESTAMP(s.\"time\") >= TO_TIMESTAMP('2020-01-01T00:00:00Z') ",
            none) ∧
      (buildQuery sampleTimeParse
          (buildQuery sampleTimeParse ⟨"", "2020-01-01T00:00:00Z", "", "", 0⟩).2).1.2 ≠ none := by
  refine ⟨rfl, rfl, by decide, by decide⟩

/-- C2: when `fromTime` and `toTime` are each unset or accepted by the parser,
`buildQuery` returns no error and the query of the specification: the base
clause followed by the predicates of the set criteria in the order id,
fromTime, toTime, word, the first introduced by `WHERE` and the others by
`AND`.  With no criterion set the query is the base clause, with only a
non-zero id it is the base clause followed by `WHERE s.id = ` and the decimal
id, and the search for `WHERE` in the base clause followed by the predicates
appended so far succeeds exactly when some predicate was appended. -/
theorem buildQuery_eq_specQuery (timeParse : String → Option String) (g : Flags)
    (hf : g.fromTime = "" ∨ timeParse g.fromTime = none)
    (ht : g.toTime = "" ∨ timeParse g.toTime = none) :
    (buildQuery timeParse g).1 = (specQuery g, none) ∧
      (g.withId = 0 → g.fromTime = "" → g.toTime = "" → g.withWord = "" →
        (buildQuery timeParse g).1 = (baseQuery, none)) ∧
      (g.withId ≠ 0 → g.fromTime = "" → g.toTime = "" → g.withWord = "" →
        (buildQuery timeParse g).1 = (baseQuery ++ "WHERE s.id = " ++ Sprint g.withId, none)) ∧
      (∀ ps : List String,
        strings.Contains (baseQuery ++ specClauses ps) whereKw = true ↔ ps ≠ []) := by
  have h := buildQuery_accepts timeParse g hf ht
  refine ⟨h, ?_, ?_, contains_specClauses⟩
  · intro hid hfe hte hwe
    rw [h]
    simp [specQuery, specPredicates, specClauses, hid, hfe, hte, hwe]
  · intro hid hfe hte hwe
    rw [h]
    simp [specQuery, specPredicates, specClauses, specAnd, hid, hfe, hte, hwe, id_literal,
      String.append_assoc, whereKw]

/-- Witness of C2: the four criteria set at once, with valid timestamps. -/
theorem buildQuery_eq_specQuery_witness :
    sampleTimeParse "2020-01-01T00:00:00Z" = none ∧
      sampleTimeParse "2020-12-31T23:59:59Z" = none ∧
      (buildQuery sampleTimeParse
          ⟨"s3://b/k", "2020-01-01T00:00:00Z", "2020-12-31T23:59:59Z", "error", 42⟩).1
        = ("SELECT s.id, s.\"time\", s.words FROM S3Object s WHERE s.id = 42AND TO_TIMESTAMP(s.\"time\") >= TO_TIMESTAMP('2020-01-01T00:00:00Z') AND TO_TIMESTAMP(s.\"time\") <= TO_TIMESTAMP('2020-12-31T23:59:59Z') AND 'error' IN s.words",
            none) :=
  ⟨by decide, by decide,
    (buildQuery_eq_specQuery sampleTimeParse
      ⟨"s3://b/k", "2020-01-01T00:00:00Z", "2020-12-31T23:59:59Z", "error", 42⟩
      (Or.inr (by decide)) (Or.inr (by decide))).1.trans rfl⟩

/-- C3 (the code departs from it): the id predicate is appended without a
trailing space, so the `AND` that introduces the next predicate runs into the
decimal id.  With id 42 and the word `a` the query reads `s.id = 42AND 'a'`:
the character before the inserted `AND` is the digit `2`, not a space. -/
theorem buildQuery_id_and_glued (timeParse : String → Option String) :
    (buildQuery timeParse ⟨"", "", "", "a", 42⟩).1
        = ("SELECT s.id, s.\"time\", s.words FROM S3Object s WHERE s.id = 42AND 'a' IN s.words",
            none) ∧
      (buildQuery timeParse ⟨"", "", "", "a", 42⟩).1.1
        = baseQuery ++ "WHERE s.id = 4" ++ "2" ++ andKw ++ " 'a' IN s.words" := by
  refine ⟨rfl, rfl⟩

/-- C4: `buildQuery` fails exactly when a set timestamp is rejected by the
parser.  A set `fromTime` that is rejected gives the empty query and the error
`-from-time value is invalid - ` followed by the parser's message; otherwise a
set `toTime` that is rejected gives the empty query and the error
`-to-time value is invalid - ` followed by the parser's message; otherwise a
query is returned without error. -/
theorem buildQuery_error_cases (timeParse : String → Option String) (g : Flags) :
    (∀ e, g.fromTime ≠ "" → timeParse g.fromTime = some e →
        (buildQuery timeParse g).1 = ("", some ("-from-time value is invalid - " ++ e))) ∧
      (∀ e, g.fromTime = "" ∨ timeParse g.fromTime = none →
        g.toTime ≠ "" → timeParse g.toTime = some e →
        (buildQuery timeParse g).1 = ("", some ("-to-time value is invalid - " ++ e))) ∧
      (g.fromTime = "" ∨ timeParse g.fromTime = none →
        g.toTime = "" ∨ timeParse g.toTime = none →
        ∃ q, (buildQuery timeParse g).1 = (q, none)) ∧
      ((buildQuery timeParse g).1.2 ≠ none ↔
        (g.fromTime ≠ "" ∧ timeParse g.fromTime ≠ none) ∨
          (g.toTime ≠ "" ∧ timeParse g.toTime ≠ none)) := by
  have h1 : ∀ e, g.fromTime ≠ "" → timeParse g.fromTime = some e →
      (buildQuery timeParse g).1 = ("", some ("-from-time value is invalid - " ++ e)) := by
    intro e hne he
    simp [buildQuery, buildQueryFrom, length_eq_zero_iff, hne, he]
  have h2 : ∀ e, g.fromTime = "" ∨ timeParse g.fromTime = none →
      g.toTime ≠ "" → timeParse g.toTime = some e →
      (buildQuery timeParse g).1 = ("", some ("-to-time value is invalid - " ++ e)) := by
    intro e hf hne he
    have hf' : ¬ g.fromTime = "" → timeParse g.fromTime = none := fun h => hf.resolve_left h
    by_cases hfe : g.fromTime = "" <;>
      simp [buildQuery, buildQueryFrom, buildQueryTo, length_eq_zero_iff, hne, he, hfe, hf']
  have h3 : g.fromTime = "" ∨ timeParse g.fromTime = none →
      g.toTime = "" ∨ timeParse g.toTime = none →
      ∃ q, (buildQuery timeParse g).1 = (q, none) :=
    fun hf ht => ⟨specQuery g, buildQuery_accepts timeParse g hf ht⟩
  refine ⟨h1, h2, h3, ?_⟩
  by_cases hfe : g.fromTime = ""
  · by_cases hte : g.toTime = ""
    · obtain ⟨q, hq⟩ := h3 (Or.inl hfe) (Or.inl hte)
      simp [hq, hfe, hte]
    · cases hp : timeParse g.toTime with
      | none =>
        obtain ⟨q, hq⟩ := h3 (Or.inl hfe) (Or.inr hp)
        simp [hq, hfe, hp]
      | some e => simp [h2 e (Or.inl hfe) hte hp, hfe, hte, hp]
  · cases hpf : timeParse g.fromTime with
    | some e => simp [h1 e hfe hpf, hfe, hpf]
    | none =>
      by_cases hte : g.toTime = ""
      · obtain ⟨q, hq⟩ := h3 (Or.inr hpf) (Or.inl hte)
        simp [hq, hpf, hte]
      · cases hp : timeParse g.toTime with
        | none =>
          obtain ⟨q, hq⟩ := h3 (Or.inr hpf) (Or.inr hp)
          simp [hq, hpf, hp]
        | some e => simp [h2 e (Or.inr hpf) hte hp, hpf, hte, hp]

/-- Witness of C4: `not-a-timestamp` as `fromTime` is rejected with an error
that names `-from-time`. -/
theorem buildQuery_error_cases_witness :
    sampleTimeParse "not-a-timestamp" = some "parsing time \"not-a-timestamp\"" ∧
      (buildQuery sampleTimeParse ⟨"s3://b/k", "not-a-timestamp", "", "", 0⟩).1
        = ("", some "-from-time value is invalid - parsing time \"not-a-timestamp\"") :=
  ⟨by decide,
    (buildQuery_error_cases sampleTimeParse ⟨"s3://b/k", "not-a-timestamp", "", "", 0⟩).1
      "parsing time \"not-a-timestamp\"" (by decide) (by decide)⟩

/-! ## The claims on `parseInputURI` and `newS3ObjectFilterer` -/

theorem parseInputURI_after_protocol (g : Flags) (tail : List Char)
    (h : g.input.data = s3Protocol.data ++ tail) :
    parseInputURI g =
      if ((strings.splitFrom ['/'] tail 0 []).map String.mk).length != 2
          || (((strings.splitFrom ['/'] tail 0 []).map String.mk).getD 0 "").length == 0
          || (((strings.splitFrom ['/'] tail 0 []).map String.mk).getD 1 "").length == 0 then
        ([], some s3URIErrMsg)
      else
        ((strings.splitFrom ['/'] tail 0 []).map String.mk, none) := by
  have hp : strings.HasPrefix g.input s3Protocol = true := by
    unfold strings.HasPrefix
    rw [List.isPrefixOf_iff_prefix]
    exact ⟨tail, h.symm⟩
  have hr : strings.Replace1 g.input s3Protocol "" = ⟨tail⟩ := by
    unfold strings.Replace1
    rw [h, replaceFirst_at_start _ _ _ (by decide)]
    rfl
  have hs : strings.Split ⟨tail⟩ "/" = (strings.splitFrom ['/'] tail 0 []).map String.mk := rfl
  unfold parseInputURI
  simp only [hp, hr, hs, Bool.not_true, Bool.false_eq_true, if_false]

theorem parseInputURI_total (g : Flags) :
    parseInputURI g = ([], some s3URIErrMsg) ∨ ∃ b k : String, parseInputURI g = ([b, k], none) := by
  unfold parseInputURI
  split
  · exact Or.inl rfl
  · simp only
    split
    · exact Or.inl rfl
    · rename_i h
      simp only [Bool.or_eq_true, bne_iff_ne, ne_eq, not_or, Decidable.not_not] at h
      obtain ⟨⟨hlen, -⟩, -⟩ := h
      match hm : strings.Split (strings.Replace1 g.input s3Protocol "") "/", hlen with
      | [b, k], _ => exact Or.inr ⟨b, k, rfl⟩

theorem parseInputURI_pair_iff (g : Flags) (b k : String) :
    parseInputURI g = ([b, k], none) ↔
      g.input = "s3://" ++ b ++ "/" ++ k ∧ b ≠ "" ∧ k ≠ "" ∧ '/' ∉ b.data ∧ '/' ∉ k.data := by
  constructor
  · intro h
    by_cases hp : strings.HasPrefix g.input s3Protocol = true
    · unfold strings.HasPrefix at hp
      rw [List.isPrefixOf_iff_prefix] at hp
      obtain ⟨tail, ht⟩ := hp
      rw [parseInputURI_after_protocol g tail ht.symm] at h
      split at h
      · simp at h
      · rename_i hc
        simp only [Prod.mk.injEq, and_true] at h
        rw [h] at hc
        simp only [List.length_cons, List.length_nil, bne_self_eq_false, List.getD_cons_zero,
          List.getD_cons_succ, Bool.false_or, Bool.or_eq_true, beq_iff_eq, not_or,
          length_eq_zero_iff] at hc
        have hl : strings.splitFrom ['/'] tail 0 [] = [b.data, k.data] := by
          have := congrArg (List.map String.data) h
          simpa [List.map_map, Function.comp_def] using this
        obtain ⟨htail, hb, hk⟩ := (splitFrom_pair '/' tail b.data k.data).1 hl
        refine ⟨?_, hc.1, hc.2, hb, hk⟩
        apply String.ext
        rw [← ht, htail]
        simp [String.data_append, s3Protocol]
    · unfold parseInputURI at h
      simp [hp] at h
  · rintro ⟨hin, hb, hk, hbs, hks⟩
    have ht : g.input.data = s3Protocol.data ++ (b.data ++ '/' :: k.data) := by
      rw [hin]
      simp [String.data_append, s3Protocol]
    rw [parseInputURI_after_protocol g _ ht, (splitFrom_pair '/' _ b.data k.data).2 ⟨rfl, hbs, hks⟩]
    simp [length_eq_zero_iff, hb, hk]

/-- C5: `parseInputURI` returns the pair `[b, k]` without error exactly when
the input is `s3://` followed by `b`, a slash and `k`, with `b` and `k`
non-empty and free of slashes; on every input that has no such form it returns
the nil slice and the error `-input s3 URI value is invalid`.  The four inputs
of the specification behave as it says. -/
theorem parseInputURI_spec (g : Flags) :
    (∀ b k : String, parseInputURI g = ([b, k], none) ↔
        g.input = "s3://" ++ b ++ "/" ++ k ∧ b ≠ "" ∧ k ≠ "" ∧ '/' ∉ b.data ∧ '/' ∉ k.data) ∧
      ((¬ ∃ b k : String,
          g.input = "s3://" ++ b ++ "/" ++ k ∧ b ≠ "" ∧ k ≠ "" ∧ '/' ∉ b.data ∧ '/' ∉ k.data) →
        parseInputURI g = ([], some "-input s3 URI value is invalid")) ∧
      parseInputURI { g with input := "s3://bucket1/key1" } = (["bucket1", "key1"], none) ∧
      parseInputURI { g with input := "s3://bucket1/path/to/key" }
        = ([], some "-input s3 URI value is invalid") ∧
      parseInputURI { g with input := "http://bucket1/key1" }
        = ([], some "-input s3 URI value is invalid") ∧
      parseInputURI { g with input := "s3:///key1" }
        = ([], some "-input s3 URI value is invalid") := by
  refine ⟨parseInputURI_pair_iff g, ?_, rfl, rfl, rfl, rfl⟩
  intro hno
  rcases parseInputURI_total g with h | ⟨b, k, h⟩
  · exact h
  · exact absurd ⟨b, k, (parseInputURI_pair_iff g b k).1 h⟩ hno

/-- C10: when `parseInputURI` succeeds its slice has exactly two elements, both
non-empty, so `newS3ObjectFilterer` reads elements 0 and 1 in bounds and builds
the filterer whose bucket is the first segment, whose key is the second one and
whose query and client are the ones passed in. -/
theorem newS3ObjectFilterer_of_parse (g : Flags) (sBucketKey : List String) (query : String)
    (s3Client : S3Client) (h : parseInputURI g = (sBucketKey, none)) :
    sBucketKey.length = 2 ∧
      ∃ b k : String, sBucketKey = [b, k] ∧ b ≠ "" ∧ k ≠ "" ∧
        g.input = "s3://" ++ b ++ "/" ++ k ∧
        newS3ObjectFilterer sBucketKey query s3Client
          = some { bucket := b, key := k, query := query, s3Client := s3Client } := by
  rcases parseInputURI_total g with he | ⟨b, k, hbk⟩
  · rw [he] at h
    simp at h
  · have hs : sBucketKey = [b, k] := by
      rw [hbk] at h
      simpa using h.symm
    subst hs
    obtain ⟨hin, hb, hk, -, -⟩ := (parseInputURI_pair_iff g b k).1 hbk
    exact ⟨rfl, b, k, rfl, hb, hk, hin, rfl⟩

/-- Witness of C10: the URI `s3://bucket1/key1`. -/
theorem newS3ObjectFilterer_of_parse_witness :
    parseInputURI ⟨"s3://bucket1/key1", "", "", "", 0⟩ = (["bucket1", "key1"], none) ∧
      (["bucket1", "key1"] : List String).length = 2 ∧
      ∃ b k : String, ["bucket1", "key1"] = [b, k] ∧ b ≠ "" ∧ k ≠ "" ∧
        (⟨"s3://bucket1/key1", "", "", "", 0⟩ : Flags).input = "s3://" ++ b ++ "/" ++ k ∧
        newS3ObjectFilterer ["bucket1", "key1"] "q" (fun _ => Except.error "no service")
          = some { bucket := b, key := k, query := "q",
                   s3Client := fun _ => Except.error "no service" } :=
  ⟨rfl, newS3ObjectFilterer_of_parse ⟨"s3://bucket1/key1", "", "", "", 0⟩ ["bucket1", "key1"] "q"
    (fun _ => Except.error "no service") rfl⟩

/-! ## The copy loop of `filterS3ObjectData` -/

theorem nextWrite_none (es : List Event) (h : nextWrite es = none) : recordBytes es = [] := by
  induction es with
  | nil => rfl
  | cons e es ih => cases e <;> simp_all [nextWrite, recordBytes]

theorem nextWrite_some (es : List Event) (p : Bytes) (es' : List Event)
    (h : nextWrite es = some (p, es')) :
    recordBytes es = p ++ recordBytes es' ∧ es'.length < es.length := by
  induction es with
  | nil => simp [nextWrite] at h
  | cons e es ih =>
    cases e with
    | RecordsEvent q =>
      simp only [nextWrite, Option.some.injEq, Prod.mk.injEq] at h
      obtain ⟨rfl, rfl⟩ := h
      simp [recordBytes]
    | StatsEvent =>
      simp only [nextWrite] at h
      obtain ⟨h1, h2⟩ := ih h
      exact ⟨by simpa [recordBytes] using h1, by simp only [List.length_cons]; omega⟩
    | ProgressEvent =>
      simp only [nextWrite] at h
      obtain ⟨h1, h2⟩ := ih h
      exact ⟨by simpa [recordBytes] using h1, by simp only [List.length_cons]; omega⟩
    | ContinuationEvent =>
      simp only [nextWrite] at h
      obtain ⟨h1, h2⟩ := ih h
      exact ⟨by simpa [recordBytes] using h1, by simp only [List.length_cons]; omega⟩
    | EndEvent =>
      simp only [nextWrite] at h
      obtain ⟨h1, h2⟩ := ih h
      exact ⟨by simpa [recordBytes] using h1, by simp only [List.length_cons]; omega⟩

theorem ioCopy_succ (bufSize : Nat) (stdoutWrite : Bytes → Bytes → Bytes × Option String)
    (fuel : Nat) (st : PipeState) :
    ioCopy bufSize stdoutWrite (fuel + 1) st =
      match (match st.writing with
        | some b => some (b, st.events)
        | none => nextWrite st.events) with
      | none => some (none, st.stdout)
      | some (b, es) =>
        if min b.length bufSize > 0 then
          match stdoutWrite st.stdout (b.take (min b.length bufSize)) with
          | (out, some ew) => some (some ew, out)
          | (out, none) =>
            ioCopy bufSize stdoutWrite fuel
              ⟨es, if (b.drop (min b.length bufSize)).length > 0
                then some (b.drop (min b.length bufSize)) else none, out⟩
        else
          ioCopy bufSize stdoutWrite fuel
            ⟨es, if (b.drop (min b.length bufSize)).length > 0
              then some (b.drop (min b.length bufSize)) else none, st.stdout⟩ := rfl

theorem ioCopy_relays (bufSize : Nat) (stdoutWrite : Bytes → Bytes → Bytes × Option String)
    (hb : 0 < bufSize) (hw : ∀ out b, stdoutWrite out b = (out ++ b, none)) :
    ∀ (fuel : Nat) (es : List Event) (w : Option Bytes) (out : Bytes),
      es.length + (recordBytes es).length
          + (match w with | none => 0 | some b => b.length + 1) < fuel →
      ioCopy bufSize stdoutWrite fuel ⟨es, w, out⟩
        = some (none, out ++ w.getD [] ++ recordBytes es) := by
  intro fuel
  induction fuel with
  | zero => intro es w out h; omega
  | succ fuel ih =>
    intro es w out h
    have step : ∀ (b : Bytes) (es' : List Event),
        es'.length + (recordBytes es').length + b.length < fuel →
        (if min b.length bufSize > 0 then
          match stdoutWrite out (b.take (min b.length bufSize)) with
          | (out', some ew) => some (some ew, out')
          | (out', none) =>
            ioCopy bufSize stdoutWrite fuel
              ⟨es', if (b.drop (min b.length bufSize)).length > 0
                then some (b.drop (min b.length bufSize)) else none, out'⟩
        else
          ioCopy bufSize stdoutWrite fuel
            ⟨es', if (b.drop (min b.length bufSize)).length > 0
              then some (b.drop (min b.length bufSize)) else none, out⟩)
          = some (none, out ++ b ++ recordBytes es') := by
      intro b es' hm
      by_cases hn : min b.length bufSize > 0
      · rw [if_pos hn, hw]
        simp only
        by_cases hr : (b.drop (min b.length bufSize)).length > 0
        · rw [if_pos hr, ih]
          · simp only [Option.getD_some, List.append_assoc]
            rw [← List.append_assoc (List.take _ b), List.take_append_drop]
          · simp only [List.length_drop]
            omega
        · rw [if_neg hr, ih]
          · have hnil : b.drop (min b.length bufSize) = [] := by
              cases hd : b.drop (min b.length bufSize) with
              | nil => rfl
              | cons x xs => simp [hd] at hr
            have hb' : b.take (min b.length bufSize) = b := by
              have := List.take_append_drop (min b.length bufSize) b
              rw [hnil, List.append_nil] at this
              exact this
            simp [hb']
          · simp only
            omega
      · have hlen : b.length = 0 := by
          rcases Nat.le_total b.length bufSize with hle | hle
          · rw [Nat.min_eq_left hle] at hn; omega
          · rw [Nat.min_eq_right hle] at hn; omega
        have hnil : b = [] := List.length_eq_zero.1 hlen
        subst hnil
        rw [if_neg hn]
        simp only [List.drop_nil, List.length_nil, gt_iff_lt, Nat.lt_irrefl, if_false]
        rw [ih]
        · simp
        · simp only
          simp only [List.length_nil] at hm
          omega
    rw [ioCopy_succ]
    cases w with
    | some b =>
      simp only
      rw [step b es (by simp only at h; omega)]
      simp
    | none =>
      simp only
      cases hnw : nextWrite es with
      | none => simp [nextWrite_none es hnw]
      | some pe =>
        obtain ⟨p, es'⟩ := pe
        obtain ⟨h1, h2⟩ := nextWrite_some es p es' hnw
        simp only
        rw [step p es' (by
          simp only at h
          rw [h1, List.length_append] at h
          omega)]
        simp [h1]

/-- C8: when the request succeeds with an event stream that ends without
error, every write to standard output succeeds and the copy buffer is not
empty, `filterS3ObjectData` (given fuel for every round of the copy loop)
returns no error and leaves on standard output what was there followed by the
payloads of the `RecordsEvent`s in arrival order; the other events add
nothing. -/
theorem filterS3ObjectData_clean_end (bufSize : Nat)
    (stdoutWrite : Bytes → Bytes → Bytes × Option String) (fuel : Nat) (s3of : s3ObjFilterer)
    (stdout : Bytes) (es : List Event) (hb : 0 < bufSize)
    (hw : ∀ out b, stdoutWrite out b = (out ++ b, none))
    (hresp : s3of.s3Client (selectParams s3of) = Except.ok ⟨es, none⟩)
    (hfuel : es.length + (recordBytes es).length < fuel) :
    filterS3ObjectData bufSize stdoutWrite fuel s3of stdout
      = some (none, stdout ++ recordBytes es) := by
  unfold filterS3ObjectData
  rw [hresp]
  simp only
  rw [ioCopy_relays bufSize stdoutWrite hb hw fuel es none stdout (by simpa using hfuel)]
  simp

/-- Witness of C8: three payloads, read through a buffer of two bytes, then
the end event and a clean end of the stream. -/
theorem filterS3ObjectData_clean_end_witness :
    filterS3ObjectData 2 stdoutAppend 16
        ⟨"bucket1", "key1", "SELECT s.id, s.\"time\", s.words FROM S3Object s ",
          fun _ => Except.ok ⟨[Event.RecordsEvent [1, 2, 3], Event.RecordsEvent [4],
            Event.RecordsEvent [5, 6], Event.EndEvent], none⟩⟩ []
      = some (none, [1, 2, 3, 4, 5, 6]) :=
  filterS3ObjectData_clean_end 2 stdoutAppend 16
    ⟨"bucket1", "key1", "SELECT s.id, s.\"time\", s.words FROM S3Object s ",
      fun _ => Except.ok ⟨[Event.RecordsEvent [1, 2, 3], Event.RecordsEvent [4],
        Event.RecordsEvent [5, 6], Event.EndEvent], none⟩⟩ []
    [Event.RecordsEvent [1, 2, 3], Event.RecordsEvent [4], Event.RecordsEvent [5, 6],
      Event.EndEvent]
    (by decide) (fun _ _ => rfl) rfl (by decide)

/-- C9: when the request succeeds with an event stream that ends with the
error `e`, every write to standard output succeeds and the copy buffer is not
empty, `filterS3ObjectData` (given fuel for every round of the copy loop) first
leaves on standard output the payloads of all the `RecordsEvent`s in order and
then returns the error `failed to read from SelectObjectContent EventStream, `
followed by `e`. -/
theorem filterS3ObjectData_stream_error (bufSize : Nat)
    (stdoutWrite : Bytes → Bytes → Bytes × Option String) (fuel : Nat) (s3of : s3ObjFilterer)
    (stdout : Bytes) (es : List Event) (e : String) (hb : 0 < bufSize)
    (hw : ∀ out b, stdoutWrite out b = (out ++ b, none))
    (hresp : s3of.s3Client (selectParams s3of) = Except.ok ⟨es, some e⟩)
    (hfuel : es.length + (recordBytes es).length < fuel) :
    filterS3ObjectData bufSize stdoutWrite fuel s3of stdout
      = some (some ("failed to read from SelectObjectContent EventStream, " ++ e),
          stdout ++ recordBytes es) := by
  unfold filterS3ObjectData
  rw [hresp]
  simp only
  rw [ioCopy_relays bufSize stdoutWrite hb hw fuel es none stdout (by simpa using hfuel)]
  simp

/-- Witness of C9: one payload, then the stream ends with an error. -/
theorem filterS3ObjectData_stream_error_witness :
    filterS3ObjectData 32768 stdoutAppend 8
        ⟨"bucket1", "key1", "SELECT s.id, s.\"time\", s.words FROM S3Object s ",
          fun _ => Except.ok ⟨[Event.RecordsEvent [7, 8, 9]], some "connection reset"⟩⟩ []
      = some (some "failed to read from SelectObjectContent EventStream, connection reset",
          [7, 8, 9]) :=
  filterS3ObjectData_stream_error 32768 stdoutAppend 8
    ⟨"bucket1", "key1", "SELECT s.id, s.\"time\", s.words FROM S3Object s ",
      fun _ => Except.ok ⟨[Event.RecordsEvent [7, 8, 9]], some "connection reset"⟩⟩ []
    [Event.RecordsEvent [7, 8, 9]] "connection reset" (by decide) (fun _ _ => rfl) rfl
    (by decide)

/-! ## Counting the keywords of a query -/

theorem isPrefixOf_append_sep (p w t : List Char) (q : Char) (hq : q ∉ p) :
    p.isPrefixOf (w ++ q :: t) = p.isPrefixOf w := by
  induction p generalizing w with
  | nil => simp
  | cons a p ih =>
    have ha : ¬ a = q := fun e => hq (e ▸ List.mem_cons_self _ _)
    have hp : q ∉ p := fun e => hq (List.mem_cons_of_mem _ e)
    cases w with
    | nil => simp [List.isPrefixOf, ha]
    | cons c w => simp [List.isPrefixOf, ih w hp]

theorem countOccFrom_append_sep (p w t : List Char) (q : Char) (hp : p ≠ []) (hq : q ∉ p) :
    countOccFrom p (w ++ q :: t) = countOccFrom p w + countOccFrom p t := by
  have hne : p.isEmpty = false := by cases p <;> simp_all
  induction w with
  | nil =>
    have h := isPrefixOf_append_sep p [] t q hq
    simp only [List.nil_append] at h
    have h0 : p.isPrefixOf [] = false := by cases p <;> simp_all
    simp [countOccFrom, h, h0, hne]
  | cons c w ih =>
    have h : p.isPrefixOf (c :: (w ++ q :: t)) = p.isPrefixOf (c :: w) :=
      isPrefixOf_append_sep p (c :: w) t q hq
    show countOccFrom p (c :: (w ++ q :: t)) = countOccFrom p (c :: w) + countOccFrom p t
    simp only [countOccFrom]
    rw [h, ih]
    omega

theorem countOccFrom_no_head (a : Char) (p s : List Char) (h : a ∉ s) :
    countOccFrom (a :: p) s = 0 := by
  induction s with
  | nil => simp [countOccFrom]
  | cons c s ih =>
    have hc : ¬ a = c := fun e => h (e ▸ List.mem_cons_self _ _)
    have hs : a ∉ s := fun e => h (List.mem_cons_of_mem _ e)
    simp [countOccFrom, List.isPrefixOf, hc, ih hs]

theorem countOccFrom_skip (a : Char) (p w t : List Char) (h : a ∉ w) :
    countOccFrom (a :: p) (w ++ t) = countOccFrom (a :: p) t := by
  induction w with
  | nil => rfl
  | cons c w ih =>
    have hc : ¬ a = c := fun e => h (e ▸ List.mem_cons_self _ _)
    have hs : a ∉ w := fun e => h (List.mem_cons_of_mem _ e)
    simp [countOccFrom, List.isPrefixOf, hc, ih hs]

theorem countOccFrom_of_not_contains (p s : List Char) (h : strings.containsFrom p s = false) :
    countOccFrom p s = 0 := by
  induction s with
  | nil => simpa [countOccFrom, strings.containsFrom] using h
  | cons c s ih =>
    simp only [strings.containsFrom, Bool.or_eq_false_iff] at h
    simp [countOccFrom, h.1, ih h.2]

theorem rfc3339Alphabet_not_mem (s : String) (c : Char) (hs : rfc3339Alphabet s = true)
    (hc : rfc3339Char c = false) : c ∉ s.data := by
  intro hmem
  unfold rfc3339Alphabet at hs
  rw [List.all_eq_true] at hs
  rw [hs c hmem] at hc
  exact Bool.noConfusion hc

theorem count_where_from_to (f t : String) (hf : 'W' ∉ f.data) (ht : 'W' ∉ t.data) :
    countOcc "WHERE" (baseQuery ++ "WHERE TO_TIMESTAMP(s.\"time\") >= TO_TIMESTAMP('" ++ f
      ++ "') AND TO_TIMESTAMP(s.\"time\") <= TO_TIMESTAMP('" ++ t ++ "') ") = 1 := by
  have h1 := countOccFrom_no_head 'W' ['H', 'E', 'R', 'E'] f.data hf
  have h2 := countOccFrom_no_head 'W' ['H', 'E', 'R', 'E'] t.data ht
  simp [countOcc, baseQuery, String.data_append, countOccFrom, countOccFrom_append_sep, h1, h2]

theorem count_and_from_to (f t : String) (hf : 'A' ∉ f.data) (ht : 'A' ∉ t.data) :
    countOcc "AND" (baseQuery ++ "WHERE TO_TIMESTAMP(s.\"time\") >= TO_TIMESTAMP('" ++ f
      ++ "') AND TO_TIMESTAMP(s.\"time\") <= TO_TIMESTAMP('" ++ t ++ "') ") = 1 := by
  have h1 := countOccFrom_no_head 'A' ['N', 'D'] f.data hf
  have h2 := countOccFrom_no_head 'A' ['N', 'D'] t.data ht
  simp [countOcc, baseQuery, String.data_append, countOccFrom, countOccFrom_append_sep, h1, h2]

theorem digitChar_ne_W (n : Nat) : ¬ 'W' = Nat.digitChar (n % 10) := by
  have h : n % 10 < 10 := Nat.mod_lt _ (by decide)
  generalize n % 10 = k at h
  interval_cases k <;> decide

theorem toDigitsCore_no_W (fuel n : Nat) (ds : List Char) (h : 'W' ∉ ds) :
    'W' ∉ Nat.toDigitsCore 10 fuel n ds := by
  induction fuel generalizing n ds with
  | zero => simpa [Nat.toDigitsCore] using h
  | succ fuel ih =>
    simp only [Nat.toDigitsCore]
    split
    · simp [digitChar_ne_W, h]
    · apply ih
      simp [digitChar_ne_W, h]

theorem repr_no_W (m : Nat) : 'W' ∉ (Nat.repr m).data := by
  show 'W' ∉ Nat.toDigitsCore 10 (m + 1) m []
  exact toDigitsCore_no_W _ _ _ (by simp)

theorem Sprint_no_W (n : Int) : 'W' ∉ (Sprint n).data := by
  cases n with
  | ofNat m => exact repr_no_W m
  | negSucc m =>
    show 'W' ∉ ("-" ++ Nat.repr (m + 1)).data
    rw [String.data_append]
    intro h
    rcases List.mem_append.1 h with h | h
    · simp at h
    · exact repr_no_W _ h

theorem buildQuery_error_iff (timeParse : String → Option String) (g : Flags) :
    (buildQuery timeParse g).1.2 = none ↔
      (g.fromTime = "" ∨ timeParse g.fromTime = none) ∧
        (g.toTime = "" ∨ timeParse g.toTime = none) := by
  constructor
  · intro h
    by_cases hfe : g.fromTime = ""
    · by_cases hte : g.toTime = ""
      · exact ⟨Or.inl hfe, Or.inl hte⟩
      · refine ⟨Or.inl hfe, Or.inr ?_⟩
        cases hp : timeParse g.toTime with
        | none => rfl
        | some e =>
          simp [buildQuery, buildQueryFrom, buildQueryTo, length_eq_zero_iff, hfe, hte, hp] at h
    · cases hpf : timeParse g.fromTime with
      | some e => simp [buildQuery, buildQueryFrom, length_eq_zero_iff, hfe, hpf] at h
      | none =>
        refine ⟨Or.inr rfl, ?_⟩
        by_cases hte : g.toTime = ""
        · exact Or.inl hte
        · refine Or.inr ?_
          cases hp : timeParse g.toTime with
          | none => rfl
          | some e =>
            simp [buildQuery, buildQueryFrom, buildQueryTo, length_eq_zero_iff, hfe, hte, hp,
              hpf] at h
  · rintro ⟨hf, ht⟩
    rw [buildQuery_accepts timeParse g hf ht]

/-- C6: with `fromTime = f` and `toTime = t` set to timestamps the parser
accepts (texts over the alphabet of RFC 3339) and id and word unset,
`buildQuery` returns the base clause followed by `WHERE`, the predicate
`time >= f`, `AND` and the predicate `time <= t`, in which `WHERE` occurs
exactly once and `AND` occurs exactly once. -/
theorem buildQuery_from_to (timeParse : String → Option String) (input f t : String)
    (hfs : f ≠ "") (hts : t ≠ "") (hf : timeParse f = none) (ht : timeParse t = none)
    (hfa : rfc3339Alphabet f = true) (hta : rfc3339Alphabet t = true) :
    (buildQuery timeParse ⟨input, f, t, "", 0⟩).1
        = (baseQuery ++ "WHERE TO_TIMESTAMP(s.\"time\") >= TO_TIMESTAMP('" ++ f
            ++ "') AND TO_TIMESTAMP(s.\"time\") <= TO_TIMESTAMP('" ++ t ++ "') ", none) ∧
      countOcc "WHERE" (buildQuery timeParse ⟨input, f, t, "", 0⟩).1.1 = 1 ∧
      countOcc "AND" (buildQuery timeParse ⟨input, f, t, "", 0⟩).1.1 = 1 := by
  have hq : (buildQuery timeParse ⟨input, f, t, "", 0⟩).1
      = (baseQuery ++ "WHERE TO_TIMESTAMP(s.\"time\") >= TO_TIMESTAMP('" ++ f
          ++ "') AND TO_TIMESTAMP(s.\"time\") <= TO_TIMESTAMP('" ++ t ++ "') ", none) := by
    rw [buildQuery_accepts timeParse _ (Or.inr hf) (Or.inr ht)]
    simp only [specQuery, specPredicates, hfs, hts, if_true, if_false, List.nil_append,
      List.append_nil, List.cons_append, specClauses, specAnd, Prod.mk.injEq, and_true]
    apply String.ext
    simp [String.data_append]
  refine ⟨hq, ?_, ?_⟩
  · rw [hq]
    exact count_where_from_to f t (rfc3339Alphabet_not_mem f 'W' hfa (by decide))
      (rfc3339Alphabet_not_mem t 'W' hta (by decide))
  · rw [hq]
    exact count_and_from_to f t (rfc3339Alphabet_not_mem f 'A' hfa (by decide))
      (rfc3339Alphabet_not_mem t 'A' hta (by decide))

/-- Witness of C6: the year 2020 as the time range. -/
theorem buildQuery_from_to_witness :
    (buildQuery sampleTimeParse
        ⟨"s3://b/k", "2020-01-01T00:00:00Z", "2020-12-31T23:59:59Z", "", 0⟩).1
      = ("SELECT s.id, s.\"time\", s.words FROM S3Object s WHERE TO_TIMESTAMP(s.\"time\") >= TO_TIMESTAMP('2020-01-01T00:00:00Z') AND TO_TIMESTAMP(s.\"time\") <= TO_TIMESTAMP('2020-12-31T23:59:59Z') ",
          none) :=
  (buildQuery_from_to sampleTimeParse "s3://b/k" "2020-01-01T00:00:00Z" "2020-12-31T23:59:59Z"
    (by decide) (by decide) (by decide) (by decide) (by decide) (by decide)).1.trans rfl

set_option maxRecDepth 8192 in
theorem count_where_specQuery (g : Flags)
    (hset : g.withId ≠ 0 ∨ g.fromTime ≠ "" ∨ g.toTime ≠ "" ∨ g.withWord ≠ "")
    (hf : 'W' ∉ g.fromTime.data) (ht : 'W' ∉ g.toTime.data)
    (hw : countOccFrom ['W', 'H', 'E', 'R', 'E'] g.withWord.data = 0) :
    countOcc "WHERE" (specQuery g) = 1 := by
  obtain ⟨input, fromTime, toTime, withWord, withId⟩ := g
  simp only at hset hf ht hw
  have h1 := countOccFrom_no_head 'W' ['H', 'E', 'R', 'E'] fromTime.data hf
  have h2 := countOccFrom_no_head 'W' ['H', 'E', 'R', 'E'] toTime.data ht
  have h4 := countOccFrom_no_head 'W' ['H', 'E', 'R', 'E'] (Sprint withId).data
    (Sprint_no_W withId)
  have h5 := fun t => countOccFrom_skip 'W' ['H', 'E', 'R', 'E'] (Sprint withId).data t
    (Sprint_no_W withId)
  by_cases hid : withId = 0 <;> by_cases hfe : fromTime = "" <;>
    by_cases hte : toTime = "" <;> by_cases hwe : withWord = "" <;>
    first
    | (apply absurd hset; simp [hid, hfe, hte, hwe]; done)
    | simp [specQuery, specPredicates, specClauses, specAnd, hid, hfe, hte, hwe, countOcc,
        baseQuery, String.data_append, countOccFrom, countOccFrom_append_sep, h1, h2, hw, h4, h5]

/-- C7, counterexample to the claim as stated: with only the word `WHERE` set
the criteria are accepted and the text `WHERE` occurs twice in the query, once
as the keyword and once inside the quoted word. -/
theorem buildQuery_where_twice :
    (buildQuery sampleTimeParse ⟨"s3://b/k", "", "", "WHERE", 0⟩).1
        = ("SELECT s.id, s.\"time\", s.words FROM S3Object s WHERE 'WHERE' IN s.words", none) ∧
      countOcc "WHERE" (buildQuery sampleTimeParse ⟨"s3://b/k", "", "", "WHERE", 0⟩).1.1 = 2 := by
  decide

/-- C7, as amended: for criteria that `buildQuery` accepts, with at least one
criterion set, timestamps over the alphabet of RFC 3339 and a word that does
not contain the text `WHERE`, the text `WHERE` occurs exactly once in the
returned query. -/
theorem buildQuery_where_once (timeParse : String → Option String) (g : Flags)
    (hok : (buildQuery timeParse g).1.2 = none)
    (hset : g.withId ≠ 0 ∨ g.fromTime ≠ "" ∨ g.toTime ≠ "" ∨ g.withWord ≠ "")
    (hfa : rfc3339Alphabet g.fromTime = true) (hta : rfc3339Alphabet g.toTime = true)
    (hw : strings.Contains g.withWord "WHERE" = false) :
    countOcc "WHERE" (buildQuery timeParse g).1.1 = 1 := by
  obtain ⟨hf, ht⟩ := (buildQuery_error_iff timeParse g).1 hok
  rw [buildQuery_accepts timeParse g hf ht]
  exact count_where_specQuery g hset (rfc3339Alphabet_not_mem _ 'W' hfa (by decide))
    (rfc3339Alphabet_not_mem _ 'W' hta (by decide)) (countOccFrom_of_not_contains _ _ hw)

/-- Witness of C7 as amended: the four criteria set at once, the word being
`error`. -/
theorem buildQuery_where_once_witness :
    countOcc "WHERE" (buildQuery sampleTimeParse
      ⟨"s3://b/k", "2020-01-01T00:00:00Z", "2020-12-31T23:59:59Z", "error", 42⟩).1.1 = 1 :=
  buildQuery_where_once sampleTimeParse
    ⟨"s3://b/k", "2020-01-01T00:00:00Z", "2020-12-31T23:59:59Z", "error", 42⟩
    (by decide) (by decide) (by decide) (by decide) (by decide)

end FilterS3
